import Mathlib

set_option maxRecDepth 40000

/-!
Shallow embedding of the trademark-similarity dashboard's selection,
reconciliation, grouping and template-rendering logic.

Sources:
* `src/components/tabs/ReportGenerationTab.tsx` (report-details page):
  selection tracking (`handleTrademarkSelect`), the four-field match-sequence
  fallback, index reconciliation by tuple matching (`findIndex` scans),
  `formatPercentage`, score normalization, `getSelectedTrademarksData`,
  `handleGenerateTemplates`.
* `src/app/app/report/[reportId]/email-templates/page.tsx`:
  sessionStorage load, applicant grouping, `parseServerDate`, `formatDate`,
  `formatOppositionDeadline`, `formatJournalInfo`, `formatPdfSource`,
  `generateEmailTemplate`.

JavaScript numbers are modelled as rationals (`ℚ`), optional record fields as
`Option`, and the insertion-ordered JS `Map`/`Set` as association lists /
duplicate-free lists kept in insertion order.
-/

namespace TMApp

/-- `SimilarTrademark` (both .tsx files): a candidate conflicting trademark. -/
structure Sim where
  mark : Option String
  similarity_score : ℚ
  trademark_class : Option String
  applicant_name : Option String
  application_no : Option String
  deriving DecidableEq, Repr

/-- `JournalTrademarkEntry`: one trademark from the uploaded journal.
The match sequence may arrive under any of four field names. -/
structure Entry where
  mark_name : Option String
  mark : Option String
  trademark_class : Option String
  applicant_name : Option String
  application_no : Option String
  pdf_source : Option String
  page_number : Option Nat
  similar_trademarks : Option (List Sim)
  similar_trademark : Option (List Sim)
  similarities : Option (List Sim)
  «matches» : Option (List Sim)
  deriving DecidableEq, Repr

/-- The four-field fallback chain
`entry?.similar_trademarks || entry?.similar_trademark || entry?.similarities
|| entry?.matches || []` (ReportGenerationTab.tsx:585-591 and elsewhere).
In JavaScript `||` skips only falsy values; a *present* array — even an empty
one — is truthy and stops the chain. -/
def simsOf (e : Entry) : List Sim :=
  match e.similar_trademarks with
  | some l => l
  | none =>
    match e.similar_trademark with
    | some l => l
    | none =>
      match e.similarities with
      | some l => l
      | none =>
        match e.«matches» with
        | some l => l
        | none => []

/-- The spec's reading of the fallback ("the first non-empty one found is
authoritative"): skip fields that are absent *or empty*. Stated only for
comparison with `simsOf`, which is the code's behaviour. -/
def firstNonEmptySims (e : Entry) : List Sim :=
  match e.similar_trademarks with
  | some (s :: l) => s :: l
  | _ =>
    match e.similar_trademark with
    | some (s :: l) => s :: l
    | _ =>
      match e.similarities with
      | some (s :: l) => s :: l
      | _ =>
        match e.«matches» with
        | some (s :: l) => s :: l
        | _ => []

/-- Composite selection key `${entryIndex}-${simIndex}`
(ReportGenerationTab.tsx:559). -/
def trademarkId (entryIndex simIndex : Nat) : String :=
  toString entryIndex ++ "-" ++ toString simIndex

/-- JS `Set.add` on an insertion-ordered, duplicate-free list. -/
def setAdd (s : List String) (k : String) : List String :=
  if s.contains k then s else s ++ [k]

/-- `handleTrademarkSelect(entryIndex, simIndex, checked)`
(ReportGenerationTab.tsx:557-569): adds the composite key to the selection set
when `checked`, removes it otherwise. -/
def handleTrademarkSelect (s : List String) (entryIndex simIndex : Nat)
    (checked : Bool) : List String :=
  let id := trademarkId entryIndex simIndex
  if checked then setAdd s id else s.erase id

/-- A sequence of raw `handleTrademarkSelect` calls applied from the left. -/
def applyToggles (ops : List (Nat × Nat × Bool)) : List String :=
  ops.foldl (fun s op => handleTrademarkSelect s op.1 op.2.1 op.2.2) []

/-- A checkbox-driven toggle: the UI always passes `checked` equal to the
negation of the key's current membership (the rendered checkbox shows
`isSelected`). -/
def flipSelect (s : List String) (entryIndex simIndex : Nat) : List String :=
  handleTrademarkSelect s entryIndex simIndex
    (!(s.contains (trademarkId entryIndex simIndex)))

/-- A sequence of checkbox flips applied from the left, starting anywhere. -/
def applyFlipsFrom (s : List String) (ops : List (Nat × Nat)) : List String :=
  ops.foldl (fun s op => flipSelect s op.1 op.2) s

/-- Checkbox flips from the initially empty selection set. -/
def applyFlips (ops : List (Nat × Nat)) : List String :=
  applyFlipsFrom [] ops

/-- JS `Array.prototype.findIndex`, index accumulator form: returns the index
of the first element satisfying `p`, or the sentinel `-1`. -/
def jsFindIndexAux (p : α → Bool) : List α → Nat → Int
  | [], _ => -1
  | x :: rest, i => if p x then (i : Int) else jsFindIndexAux p rest (i + 1)

/-- JS `Array.prototype.findIndex` with the `-1` not-found sentinel. -/
def jsFindIndex (p : α → Bool) (l : List α) : Int :=
  jsFindIndexAux p l 0

/-- Score comparison with the 1e-4 epsilon:
`Math.abs((s.similarity_score || 0) - (sim.similarity_score || 0)) < 0.0001`.
(`x || 0` is the identity on every number except `0`, where it is `0` again,
so it is dropped.) -/
def epsMatch (a b : ℚ) : Bool :=
  |a - b| < 1 / 10000

/-- Reconciliation predicate of the applicant-filtered view
(ReportGenerationTab.tsx:1349-1355): mark, score (within epsilon), applicant
and class must agree. -/
def tupleMatch4 (s cand : Sim) : Bool :=
  s.mark == cand.mark &&
    epsMatch s.similarity_score cand.similarity_score &&
    s.applicant_name == cand.applicant_name &&
    s.trademark_class == cand.trademark_class

/-- Reconciliation predicate of the similar-trademarks table
(ReportGenerationTab.tsx:1651-1655): mark, score (within epsilon) and
applicant — the class is *not* compared there. -/
def tupleMatch3 (s cand : Sim) : Bool :=
  s.mark == cand.mark &&
    epsMatch s.similarity_score cand.similarity_score &&
    s.applicant_name == cand.applicant_name

/-- `actualSimIndex` of the applicant-filtered view: first position of the
original sequence whose four-field tuple matches the candidate. -/
def actualSimIndex4 (originals : List Sim) (cand : Sim) : Int :=
  jsFindIndex (fun s => tupleMatch4 s cand) originals

/-- `actualSimIndex` of the similar-trademarks table: first position of the
original sequence whose three-field tuple matches the candidate. -/
def actualSimIndex3 (originals : List Sim) (cand : Sim) : Int :=
  jsFindIndex (fun s => tupleMatch3 s cand) originals

/-- One rendered row of the similar-trademarks table: the reconciled composite
key and the displayed match. -/
structure Row where
  rowId : String
  sim : Sim
  deriving DecidableEq, Repr

/-- Rendering one match of the filtered table body
(ReportGenerationTab.tsx:1642-1694): reconcile against the original sequence;
on the `-1` sentinel the callback returns `null` (the row is skipped), which
React drops from the rendered list. -/
def renderRow (originals : List Sim) (actualEntryIndex : Nat) (sim : Sim) :
    Option Row :=
  let idx := actualSimIndex3 originals sim
  if idx = -1 then none
  else some ⟨trademarkId actualEntryIndex idx.toNat, sim⟩

/-- Rendering the whole filtered list: per-item `renderRow`, `null`s dropped. -/
def renderRows (originals : List Sim) (actualEntryIndex : Nat)
    (derived : List Sim) : List Row :=
  derived.filterMap (renderRow originals actualEntryIndex)

/-- `formatPercentage` (ReportGenerationTab.tsx:539-541):
`(value * 100).toFixed(1) + '%'`. -/
def toFixed1 (q : ℚ) : String :=
  let n : Int := ⌊q * 10 + 1 / 2⌋
  let a := n.natAbs
  (if n < 0 then "-" else "") ++ toString (a / 10) ++ "." ++ toString (a % 10)

/-- `formatPercentage(value)`: multiply by 100, one decimal place, percent
sign. No normalization happens inside. -/
def formatPercentage (value : ℚ) : String :=
  toFixed1 (value * 100) ++ "%"

/-- Score normalization as written at ReportGenerationTab.tsx:1332, 691, 706:
`score > 1 ? score / 100 : score`. -/
def normScore (score : ℚ) : ℚ :=
  if score > 1 then score / 100 else score

/-- The JS whitespace class relevant to `String.prototype.trim` (ASCII part
plus NBSP). -/
def jsIsWhite (c : Char) : Bool :=
  c == ' ' || c == '\t' || c == '\n' || c == '\r' ||
    c == Char.ofNat 11 || c == Char.ofNat 12 || c == Char.ofNat 160

/-- JS `String.prototype.trim`: strip leading and trailing whitespace. -/
def jsTrim (s : String) : String :=
  ⟨((s.data.dropWhile jsIsWhite).reverse.dropWhile jsIsWhite).reverse⟩

/-- Applicant-name normalization of the grouping effect
(email-templates/page.tsx:133-138):
`let applicantName = sim.applicant_name?.trim() || ''; if (applicantName ===
'') applicantName = 'Unknown';`. -/
def normalizeApplicant (name : Option String) : String :=
  let t := match name with
    | none => ""
    | some s => jsTrim s
  if t = "" then "Unknown" else t

/-- One element of the `selectedTrademarks` list handed to the
email-templates page (`SelectedTrademark` in both files). -/
structure SelTm where
  entry : Entry
  sim : Sim
  entryIndex : Nat
  simIndex : Nat
  deriving DecidableEq, Repr

/-- Per-applicant bucket of one journal entry: the original entry position,
the entry, and the selected matches pushed for it (insertion order). -/
abbrev EntryBucket := Nat × Entry × List Sim

/-- One `ApplicantGroup` before e-mail resolution: the normalized applicant
name and its entry buckets in insertion order (the JS `Map`). -/
abbrev Group := String × List EntryBucket

/-- `applicantEntries.get(entryIndex)!.similarTrademarks.push(sim)` preceded
by `if (!applicantEntries.has(entryIndex)) applicantEntries.set(entryIndex,
{entry, similarTrademarks: []})` (email-templates/page.tsx:149-156), on the
insertion-ordered association list modelling the inner `Map`. -/
def pushSimIntoBuckets (buckets : List EntryBucket) (ei : Nat) (entry : Entry)
    (sim : Sim) : List EntryBucket :=
  match buckets with
  | [] => [(ei, entry, [sim])]
  | (i, en, sims) :: rest =>
    if i = ei then (i, en, sims ++ [sim]) :: rest
    else (i, en, sims) :: pushSimIntoBuckets rest ei entry sim

/-- `if (!grouped.has(applicantName)) grouped.set(applicantName, new Map())`
followed by the inner push (email-templates/page.tsx:144-156), on the
insertion-ordered association list modelling the outer `Map`. -/
def pushIntoGroups (groups : List Group) (key : String) (ei : Nat)
    (entry : Entry) (sim : Sim) : List Group :=
  match groups with
  | [] => [(key, [(ei, entry, [sim])])]
  | (k, buckets) :: rest =>
    if k = key then (k, pushSimIntoBuckets buckets ei entry sim) :: rest
    else (k, buckets) :: pushIntoGroups rest key ei entry sim

/-- The grouping effect of the email-templates page
(email-templates/page.tsx:133-157): fold the selected trademarks into
applicant groups keyed by the normalized applicant name. -/
def groupByApplicant (sels : List SelTm) : List Group :=
  sels.foldl
    (fun gs st =>
      pushIntoGroups gs (normalizeApplicant st.sim.applicant_name)
        st.entryIndex st.entry st.sim)
    []

/-- Buckets of the group with the given key (`grouped.get(key)`); `[]` when
the key is absent. -/
def findGroup : List Group → String → List EntryBucket
  | [], _ => []
  | (k, bs) :: rest, key => if k = key then bs else findGroup rest key

/-- All matches collected in a bucket list, in order. -/
def bucketsSims (bs : List EntryBucket) : List Sim :=
  (bs.map (fun b => b.2.2)).flatten

/-- Selected-match count of one group, as in the
`groups.reduce` verification (email-templates/page.tsx:175-177). -/
def groupCount (g : Group) : Nat :=
  (g.2.map (fun b => b.2.2.length)).sum

/-- `totalTrademarksInGroups` (email-templates/page.tsx:175-177). -/
def totalTrademarksInGroups (gs : List Group) : Nat :=
  (gs.map groupCount).sum

/-- Inner loop of `getSelectedTrademarksData`
(ReportGenerationTab.tsx:593-605): walk the entry's match sequence with its
running index, keeping the matches whose composite key is in the selection
set. -/
def collectSims (sel : List String) (entry : Entry) (ei : Nat) :
    Nat → List Sim → List SelTm
  | _, [] => []
  | si, sim :: rest =>
    (if sel.contains (trademarkId ei si) then [⟨entry, sim, ei, si⟩] else [])
      ++ collectSims sel entry ei (si + 1) rest

/-- Outer loop of `getSelectedTrademarksData`
(ReportGenerationTab.tsx:585-605): walk the entries with their running index.
-/
def collectEntries (sel : List String) : Nat → List Entry → List SelTm
  | _, [] => []
  | ei, e :: rest =>
    collectSims sel e ei 0 (simsOf e) ++ collectEntries sel (ei + 1) rest

/-- `getSelectedTrademarksData` (ReportGenerationTab.tsx:572-645): the ordered
list of selected (entry, match) pairs, driven only by membership in the
selection set. -/
def getSelectedTrademarksData (entries : List Entry) (sel : List String) :
    List SelTm :=
  collectEntries sel 0 entries

/-- Lexicographic order on the composite selection key. -/
def keyLt (a b : SelTm) : Prop :=
  a.entryIndex < b.entryIndex ∨
    (a.entryIndex = b.entryIndex ∧ a.simIndex < b.simIndex)

/-- The two session-scoped storage keys bridging the report-details page and
the email-templates page. -/
structure Store where
  selectedTrademarks : Option String
  reportData : Option String
  deriving DecidableEq, Repr

/-- `ReportData` of the email-templates page. -/
structure ReportMeta where
  report_id : String
  monday_date : String
  report_date : String
  deriving DecidableEq, Repr

/-- Outcome of the sessionStorage load effect of the email-templates page. -/
inductive LoadResult where
  /-- a key is absent: error banner, nothing cleared -/
  | missingError
  /-- `JSON.parse` threw: error banner, both keys cleared -/
  | corruptError
  /-- parsed but not a non-empty array: error banner, nothing cleared -/
  | invalidError
  /-- data accepted into page state -/
  | loaded (tms : List SelTm) (rep : ReportMeta)
  deriving DecidableEq, Repr

/-- The load effect (email-templates/page.tsx:74-113). `JSON.parse` (a
platform builtin, not repository code) is abstracted as the two decoder
parameters; `none` models a thrown parse error. -/
def loadEmailTemplatesPage (parseSel : String → Option (List SelTm))
    (parseRep : String → Option ReportMeta) (store : Store) :
    LoadResult × Store :=
  match store.selectedTrademarks, store.reportData with
  | none, _ => (.missingError, store)
  | some _, none => (.missingError, store)
  | some ts, some rs =>
    match parseSel ts, parseRep rs with
    | none, _ => (.corruptError, ⟨none, none⟩)
    | some _, none => (.corruptError, ⟨none, none⟩)
    | some tms, some rep =>
      if tms.isEmpty then (.invalidError, store) else (.loaded tms rep, store)

/-- `sessionStorage.removeItem('selectedTrademarks')`. -/
def removeItemSelected (st : Store) : Store :=
  { st with selectedTrademarks := none }

/-- `sessionStorage.removeItem('reportData')`. -/
def removeItemReport (st : Store) : Store :=
  { st with reportData := none }

/-- `sessionStorage.setItem('selectedTrademarks', v)`. -/
def setItemSelected (st : Store) (v : String) : Store :=
  { st with selectedTrademarks := some v }

/-- `sessionStorage.setItem('reportData', v)`. -/
def setItemReport (st : Store) (v : String) : Store :=
  { st with reportData := some v }

/-- `handleGenerateTemplates` (ReportGenerationTab.tsx:648-673): collect the
selected data; on empty selection alert and stay (`false`); otherwise remove
both keys, store the serialized payloads, and navigate (`true`).
`JSON.stringify` is abstracted as the serializer parameters. -/
def handleGenerateTemplates (serializeSel : List SelTm → String)
    (serializedReport : String) (entries : List Entry) (sel : List String)
    (store : Store) : Store × Bool :=
  let selectedData := getSelectedTrademarksData entries sel
  if selectedData.isEmpty then (store, false)
  else
    let st1 := removeItemReport (removeItemSelected store)
    (setItemReport (setItemSelected st1 (serializeSel selectedData))
        serializedReport,
      true)

/-- Split a character list at every occurrence of `c` (JS `String.split`). -/
def splitOnCharAux (c : Char) : List Char → List Char → List (List Char)
  | [], acc => [acc.reverse]
  | x :: rest, acc =>
    if x = c then acc.reverse :: splitOnCharAux c rest []
    else splitOnCharAux c rest (x :: acc)

/-- JS `String.prototype.split` with a one-character separator. -/
def splitOnChar (c : Char) (l : List Char) : List (List Char) :=
  splitOnCharAux c l []

/-- JS `Number(...)` restricted to the digit strings produced by the date
splitting (`.map(Number)`); the empty string gives 0, as in JS. -/
def toNumber (l : List Char) : Nat :=
  l.foldl (fun n c => n * 10 + (c.toNat - 48)) 0

/-- A JS `Date` holding a UTC instant, split into calendar fields.
`month0` is 0-based as in `getMonth`/`setMonth`. -/
structure JSDate where
  year : Nat
  month0 : Nat
  day : Nat
  hour : Nat
  minute : Nat
  second : Nat
  deriving DecidableEq, Repr

/-- `parseServerDate` (email-templates/page.tsx:207-231): parse ISO,
space-separated, or date-only server strings as UTC. -/
def parseServerDate (s : String) : JSDate :=
  let cs := s.data
  if cs.contains 'T' then
    let parts := splitOnChar 'T' cs
    let dateParts := (splitOnChar '-' (parts.getD 0 [])).map toNumber
    let timeNoMicro := (splitOnChar '.' (parts.getD 1 [])).getD 0 []
    let timeParts := (splitOnChar ':' timeNoMicro).map toNumber
    ⟨dateParts.getD 0 0, dateParts.getD 1 0 - 1, dateParts.getD 2 0,
      timeParts.getD 0 0, timeParts.getD 1 0, timeParts.getD 2 0⟩
  else if cs.contains ' ' then
    let parts := splitOnChar ' ' cs
    let dateParts := (splitOnChar '-' (parts.getD 0 [])).map toNumber
    let timeParts := (splitOnChar ':' (parts.getD 1 [])).map toNumber
    ⟨dateParts.getD 0 0, dateParts.getD 1 0 - 1, dateParts.getD 2 0,
      timeParts.getD 0 0, timeParts.getD 1 0, timeParts.getD 2 0⟩
  else
    let dateParts := (splitOnChar '-' cs).map toNumber
    ⟨dateParts.getD 0 0, dateParts.getD 1 0 - 1, dateParts.getD 2 0, 0, 0, 0⟩

/-- Gregorian leap year. -/
def isLeap (y : Nat) : Bool :=
  (y % 4 = 0 && !(y % 100 = 0)) || y % 400 = 0

/-- Days in the month with 0-based index `m0` of year `y`. -/
def daysInMonth (y m0 : Nat) : Nat :=
  [31, if isLeap y then 29 else 28, 31, 30, 31, 30, 31, 31, 30, 31, 30,
    31].getD m0 30

/-- Roll an overflowing day-of-month into the following months, as JS `Date`
field normalization does (fuel-bounded structural recursion). -/
def normalizeDay : Nat → Nat → Nat → Nat → Nat × Nat × Nat
  | 0, y, m0, d => (y, m0, d)
  | fuel + 1, y, m0, d =>
    let dim := daysInMonth y m0
    if d ≤ dim then (y, m0, d)
    else if m0 = 11 then normalizeDay fuel (y + 1) 0 (d - dim)
    else normalizeDay fuel y (m0 + 1) (d - dim)

/-- `date.setMonth(date.getMonth() + k)`: month overflow moves into the year,
day overflow is normalized forward. -/
def addMonthsJS (dt : JSDate) (k : Nat) : JSDate :=
  let t := dt.month0 + k
  let norm := normalizeDay 24 (dt.year + t / 12) (t % 12) dt.day
  { dt with year := norm.1, month0 := norm.2.1, day := norm.2.2 }

/-- Shift a UTC instant to the Asia/Kolkata zone (UTC+05:30), the `timeZone`
every `toLocaleDateString` call in these pages requests. -/
def toKolkata (dt : JSDate) : JSDate :=
  let mins := dt.hour * 60 + dt.minute + 330
  if mins < 1440 then { dt with hour := mins / 60, minute := mins % 60 }
  else
    let mins2 := mins - 1440
    let ymd :=
      if dt.day + 1 ≤ daysInMonth dt.year dt.month0 then
        (dt.year, dt.month0, dt.day + 1)
      else if dt.month0 = 11 then (dt.year + 1, 0, 1)
      else (dt.year, dt.month0 + 1, 1)
    ⟨ymd.1, ymd.2.1, ymd.2.2, mins2 / 60, mins2 % 60, dt.second⟩

/-- English month name for the 0-based month index. -/
def monthName (m0 : Nat) : String :=
  ["January", "February", "March", "April", "May", "June", "July", "August",
    "September", "October", "November", "December"].getD m0 ""

/-- `toLocaleDateString('en-IN', { month: 'long', day: 'numeric', year:
'numeric', timeZone: 'Asia/Kolkata' })`: the CLDR en-IN long date pattern is
day-first, "d MMMM y". -/
def localeEnINLong (dt : JSDate) : String :=
  let k := toKolkata dt
  toString k.day ++ " " ++ monthName k.month0 ++ " " ++ toString k.year

/-- `formatDate` of the email-templates page (page.tsx:233-245). -/
def formatDate (dateString : String) : String :=
  localeEnINLong (parseServerDate dateString)

/-- `formatOppositionDeadline` (page.tsx:247-261): reference date plus four
calendar months, rendered en-IN in Asia/Kolkata. -/
def formatOppositionDeadline (mondayDate : String) : String :=
  localeEnINLong (addMonthsJS (parseServerDate mondayDate) 4)

/-- One attempt of the regex `/Journal_(\d+)/` at the current position: the
literal `Journal_` followed by at least one digit. -/
def matchJournalAt (l : List Char) : Option (List Char) :=
  if "Journal_".data.isPrefixOf l then
    let ds := (l.drop 8).takeWhile Char.isDigit
    if ds.isEmpty then none else some ds
  else none

/-- First match of `/Journal_(\d+)/` anywhere in the string
(email-templates/page.tsx:268): the captured digit group. -/
def findJournalNum : List Char → Option (List Char)
  | [] => none
  | c :: rest =>
    match matchJournalAt (c :: rest) with
    | some ds => some ds
    | none => findJournalNum rest

/-- `formatJournalInfo` (page.tsx:263-276): journal number extracted from the
PDF source name, prefixed to the formatted reference date when found. -/
def formatJournalInfo (mondayDate : String) (pdfSource : Option String) :
    String :=
  let journalNumber : String :=
    match pdfSource with
    | none => ""
    | some s =>
      if s.data.isEmpty then ""
      else
        match findJournalNum s.data with
        | some ds => ⟨ds⟩
        | none => ""
  let formattedDate := formatDate mondayDate
  if journalNumber.data.isEmpty then formattedDate
  else journalNumber ++ " " ++ formattedDate

/-- The trailing `.pdf` of the regex `/\.pdf$/i`, removed case-insensitively.
-/
def dropPdfExt (l : List Char) : List Char :=
  if (l.drop (l.length - 4)).map Char.toLower = ".pdf".data ∧ 4 ≤ l.length then
    l.take (l.length - 4)
  else l

/-- `replace(/\s+/g, ' ')`: each maximal whitespace run becomes one space.
The flag records whether the previous character was part of a run. -/
def collapseRuns : Bool → List Char → List Char
  | _, [] => []
  | prevWhite, c :: rest =>
    if jsIsWhite c then
      if prevWhite then collapseRuns true rest
      else ' ' :: collapseRuns true rest
    else c :: collapseRuns false rest

/-- `formatPdfSource` (page.tsx:278-291): drop the `.pdf` extension, turn
underscores into spaces, collapse whitespace, trim; falsy input gives "N/A".
-/
def formatPdfSource (pdfSource : Option String) : String :=
  match pdfSource with
  | none => "N/A"
  | some s =>
    if s.data.isEmpty then "N/A"
    else
      let underscored :=
        (dropPdfExt s.data).map fun c => if c = '_' then ' ' else c
      jsTrim ⟨collapseRuns false underscored⟩

/-- JS `a || b` on an optional string with string fallback: absent or empty
falls through. -/
def jsOrS (a : Option String) (b : String) : String :=
  match a with
  | some s => if s.data.isEmpty then b else s
  | none => b

/-- `${entry.page_number || 'N/A'}`: absent or zero page number renders as
"N/A". -/
def pageNoStr (p : Option Nat) : String :=
  match p with
  | some n => if n = 0 then "N/A" else toString n
  | none => "N/A"

/-- `classValue.startsWith('Class ') ? classValue.substring(6) : classValue`
(page.tsx:315-319). -/
def stripClassPrefix (classValue : String) : String :=
  if "Class ".data.isPrefixOf classValue.data then ⟨classValue.data.drop 6⟩
  else classValue

/-- The apostrophe character, used in the salutation. -/
def apos : String :=
  String.singleton (Char.ofNat 39)

/-- The per-match lines of the template (page.tsx:314-323). -/
def simBlock (sim : Sim) : String :=
  let classValue := stripClassPrefix (jsOrS sim.trademark_class "N/A")
  "Trademark: " ++ jsOrS sim.mark "N/A" ++ "\n" ++
    "Class: " ++ classValue ++ "\n" ++ "\n"

/-- The per-journal-entry section of the template (page.tsx:303-323). -/
def entryBlock (mondayDate : String) (b : EntryBucket) : String :=
  "Trademark: " ++ jsOrS b.2.1.mark_name (jsOrS b.2.1.mark "N/A") ++ "\n" ++
    "Class: " ++ jsOrS b.2.1.trademark_class "N/A" ++ "\t\t\n" ++
    "Source PDF Journal: " ++ formatPdfSource b.2.1.pdf_source ++ "\n" ++
    "Trademark Journal Date: " ++
    formatJournalInfo mondayDate b.2.1.pdf_source ++ "\t\n" ++
    "Page No: " ++ pageNoStr b.2.1.page_number ++ "\n\n" ++
    "The aforesaid advertised trademark conflict with your following " ++
    "Registered Trademark.\n\n" ++
    String.join (b.2.2.map simBlock)

/-- All entry sections, with the extra blank line between sections but not
after the last (`arrayIndex < entriesArray.length - 1`, page.tsx:326-328). -/
def entryBlocks (mondayDate : String) : List EntryBucket → String
  | [] => ""
  | [b] => entryBlock mondayDate b
  | b :: b2 :: rest =>
    entryBlock mondayDate b ++ "\n" ++ entryBlocks mondayDate (b2 :: rest)

/-- `generateEmailTemplate` (page.tsx:293-339): deterministic plain-text
opposition notice for one applicant group. The applicant name is accepted but
never interpolated, exactly as in the source. -/
def generateEmailTemplate (_applicantName : String)
    (entries : List EntryBucket) (mondayDate : String) : String :=
  "Dear Sir/Ma" ++ apos ++ "am,\n\n" ++
    "We wish to draw your immediate attention to an application advertised " ++
    "in Trademark Journal, details of which are appearing herein below:\n\n" ++
    entryBlocks mondayDate entries ++
    "We are of the opinion that you should take necessary action to " ++
    "prevent the registration of the said trade mark, for which you need " ++
    "to file a Notice of Opposition on or before " ++
    formatOppositionDeadline mondayDate ++ ".\n\n" ++
    "If you wish to file a Notice of Opposition, kindly let us have your " ++
    "necessary instructions in this regard.\n\n" ++
    "Should you need further assistance in this regard, please feel free " ++
    "to contact us.\n\n" ++
    "Kindly, acknowledge safe receipt of this email.\n\n\n\n" ++
    "Thanks and Regards,"

/-- Substring test used to state the template scenario (structural, so the
kernel can evaluate it). -/
def containsSub (pat : List Char) : List Char → Bool
  | [] => pat.isPrefixOf []
  | c :: rest => pat.isPrefixOf (c :: rest) || containsSub pat rest

/-- `t` contains `p` as a contiguous substring. -/
def strContains (t p : String) : Bool :=
  containsSub p.data t.data

/-! ### Concrete instances for the scenario claims and counterexamples -/

/-- The match "TYGER" of the spec's template scenario. -/
def tygerSim : Sim :=
  ⟨some "TYGER", 85 / 100, some "Class 25", some "Acme Corp", none⟩

/-- The journal entry "TIGER" of the spec's template scenario. -/
def tigerEntry : Entry :=
  ⟨some "TIGER", none, some "25", none, none, some "Journal_2237_Class25.pdf",
    none, some [tygerSim], none, none, none⟩

/-- The single selection of the template scenario. -/
def selTiger : SelTm :=
  ⟨tigerEntry, tygerSim, 0, 0⟩

/-- The template generated for the scenario with reference Monday
"2025-01-06". -/
def tigerTemplate : String :=
  generateEmailTemplate "Acme Corp"
    (findGroup (groupByApplicant [selTiger]) "Acme Corp") "2025-01-06"

/-- Two distinct matches agreeing on mark, applicant, class and score but
differing in application number — indistinguishable to the reconciliation
tuple. -/
def dupSimA : Sim :=
  ⟨some "ALPHA", 1 / 2, some "25", some "P Ltd", some "100"⟩

/-- See `dupSimA`; only the application number differs. -/
def dupSimB : Sim :=
  ⟨some "ALPHA", 1 / 2, some "25", some "P Ltd", some "200"⟩

/-- A match whose mark differs from `dupSimA`/`dupSimB`. -/
def otherSim : Sim :=
  ⟨some "BETA", 1 / 2, some "30", some "Q Ltd", some "300"⟩

/-- A match whose applicant name differs from `tygerSim`'s only in letter
case. -/
def caseSim : Sim :=
  ⟨some "CASE", 1 / 2, none, some "acme corp", none⟩

/-- An entry whose `similar_trademarks` field is present but empty while
`matches` is non-empty; exercises the fallback chain. -/
def emptyFirstEntry : Entry :=
  ⟨some "GAMMA", none, none, none, none, none, none, some [], none, none,
    some [otherSim]⟩

/-- A decoder that accepts any stored string as the scenario selection list;
stands for a successful `JSON.parse`. -/
def goodParseSel : String → Option (List SelTm) :=
  fun _ => some [selTiger]

/-- A decoder that accepts any stored string as a fixed report object. -/
def goodParseRep : String → Option ReportMeta :=
  fun _ => some ⟨"r1", "2025-01-06", "2025-01-06"⟩

/-- A decoder that rejects every stored string; stands for `JSON.parse`
throwing on corrupted content. -/
def badParseSel : String → Option (List SelTm) :=
  fun _ => none

/-- A session store holding both keys. -/
def storeBoth : Store :=
  ⟨some "serialized-selection", some "serialized-report"⟩

/-! ### Helper lemmas -/

/-- The epsilon comparison accepts an unchanged score. -/
theorem epsMatch_self (a : ℚ) : epsMatch a a = true := by
  simp only [epsMatch, sub_self, abs_zero, decide_eq_true_eq]
  norm_num

/-- The four-field reconciliation tuple accepts an unchanged match. -/
theorem tupleMatch4_self (c : Sim) : tupleMatch4 c c = true := by
  simp [tupleMatch4, epsMatch_self]

/-- The three-field reconciliation tuple accepts an unchanged match. -/
theorem tupleMatch3_self (c : Sim) : tupleMatch3 c c = true := by
  simp [tupleMatch3, epsMatch_self]

/-- `findIndex` skips a prefix of non-matching elements and stops at the
first match, whatever the index accumulator. -/
theorem jsFindIndexAux_first (p : α → Bool) (xs ys : List α) (c : α)
    (hxs : ∀ x ∈ xs, p x = false) (hc : p c = true) :
    ∀ i : Nat, jsFindIndexAux p (xs ++ c :: ys) i = (i : Int) + xs.length := by
  induction xs with
  | nil => intro i; simp [jsFindIndexAux, hc]
  | cons x rest ih =>
    intro i
    have hx : p x = false := hxs x (by simp)
    have ihr := ih (fun y hy => hxs y (by simp [hy])) (i + 1)
    simp only [List.cons_append, jsFindIndexAux, hx, Bool.false_eq_true,
      if_false, List.length_cons, List.append_eq]
    rw [ihr]
    push_cast
    ring

/-! ### C1: reconciliation recovers the original index -/

/-- C1 (counterexample): two distinct matches `dupSimA`, `dupSimB` agree on
mark, applicant, class and score and differ only in application number.
`dupSimB` sits (only) at index 1 of the original sequence, yet both
reconciliation scans return 0, not 1 — so reconciliation does not always
return the match's own index. -/
theorem reconcile_duplicate_counterexample :
    actualSimIndex4 [dupSimA, dupSimB] dupSimB = 0 ∧
      actualSimIndex3 [dupSimA, dupSimB] dupSimB = 0 ∧
      [dupSimA, dupSimB].get? 1 = some dupSimB ∧ dupSimA ≠ dupSimB := by
  refine ⟨?_, ?_, rfl, ?_⟩
  · simp [actualSimIndex4, jsFindIndex, jsFindIndexAux, tupleMatch4,
      dupSimA, dupSimB, epsMatch_self]
  · simp [actualSimIndex3, jsFindIndex, jsFindIndexAux, tupleMatch3,
      dupSimA, dupSimB, epsMatch_self]
  · intro h
    have := congrArg Sim.application_no h
    simp [dupSimA, dupSimB] at this

/-- C1 (amended): reconciliation returns the first tuple-matching position;
this equals the candidate's own index in the original sequence whenever no
earlier element of that sequence matches the candidate's tuple (in
particular whenever the tuple is unique there). Both scan variants are
covered: the applicant-filtered view compares mark, score, applicant and
class; the similar-trademarks table compares mark, score and applicant only.
-/
theorem reconcile_first_unique (xs ys xs3 ys3 : List Sim) (cand cand3 : Sim)
    (h4 : ∀ x ∈ xs, tupleMatch4 x cand = false)
    (h3 : ∀ x ∈ xs3, tupleMatch3 x cand3 = false) :
    actualSimIndex4 (xs ++ cand :: ys) cand = xs.length ∧
      actualSimIndex3 (xs3 ++ cand3 :: ys3) cand3 = xs3.length := by
  constructor
  · have := jsFindIndexAux_first (fun s => tupleMatch4 s cand) xs ys cand h4
      (tupleMatch4_self cand) 0
    simpa [actualSimIndex4, jsFindIndex] using this
  · have := jsFindIndexAux_first (fun s => tupleMatch3 s cand3) xs3 ys3 cand3
      h3 (tupleMatch3_self cand3) 0
    simpa [actualSimIndex3, jsFindIndex] using this

/-- C1 (witness): with a non-matching match ahead of it, `dupSimA` (resp.
`dupSimB`) reconciles to its own index 1 in both scan variants. -/
theorem reconcile_first_unique_witness :
    actualSimIndex4 ([otherSim] ++ dupSimA :: []) dupSimA =
        [otherSim].length ∧
      actualSimIndex3 ([otherSim] ++ dupSimB :: []) dupSimB =
        [otherSim].length :=
  reconcile_first_unique [otherSim] [] [otherSim] [] dupSimA dupSimB
    (by intro x hx; simp only [List.mem_singleton] at hx; subst hx; rfl)
    (by intro x hx; simp only [List.mem_singleton] at hx; subst hx; rfl)

/-! ### C8: reconciliation misses are non-fatal per-item skips -/

/-- C8: when reconciliation of a derived-view match against the original
sequence yields the `-1` sentinel, that item renders to `null` (skipped) and
the surrounding list renders exactly as if the item were absent — siblings
are unaffected and no failure is raised. -/
theorem reconcile_miss_skips (origs : List Sim) (aei : Nat)
    (xs ys : List Sim) (bad : Sim)
    (h : actualSimIndex3 origs bad = -1) :
    renderRow origs aei bad = none ∧
      renderRows origs aei (xs ++ bad :: ys) =
        renderRows origs aei (xs ++ ys) := by
  have hrow : renderRow origs aei bad = none := by
    simp [renderRow, h]
  exact ⟨hrow, by simp [renderRows, List.filterMap_append, hrow]⟩

/-- C8 (witness): a match absent from the original sequence is skipped while
its concrete siblings still render. -/
theorem reconcile_miss_skips_witness :
    renderRow [otherSim] 0 dupSimA = none ∧
      renderRows [otherSim] 0 ([otherSim] ++ dupSimA :: [otherSim]) =
        renderRows [otherSim] 0 ([otherSim] ++ [otherSim]) :=
  reconcile_miss_skips [otherSim] 0 [otherSim] [otherSim] dupSimA rfl

/-! ### C5: toggle sequences and parity -/

/-- Membership after one checkbox flip on a duplicate-free selection set:
the flipped key inverts, every other key is untouched. -/
theorem mem_flipSelect (s : List String) (hs : s.Nodup) (e m : Nat)
    (k : String) :
    (k ∈ flipSelect s e m ↔
        if trademarkId e m = k then k ∉ s else k ∈ s) ∧
      (flipSelect s e m).Nodup := by
  unfold flipSelect handleTrademarkSelect
  by_cases hmem : trademarkId e m ∈ s
  · have hc : s.contains (trademarkId e m) = true := List.elem_iff.mpr hmem
    simp only [hc, Bool.not_true, Bool.false_eq_true, if_false]
    refine ⟨?_, hs.erase _⟩
    by_cases hk : trademarkId e m = k
    · subst hk
      simp [hs.not_mem_erase, hmem]
    · have hk2 : k ≠ trademarkId e m := fun h => hk h.symm
      simp [List.mem_erase_of_ne hk2, hk]
  · have hc : s.contains (trademarkId e m) = false := by
      rw [← Bool.not_eq_true]
      simpa [List.elem_iff] using hmem
    simp only [hc, Bool.not_false, if_true, setAdd, Bool.false_eq_true,
      if_false]
    constructor
    · by_cases hk : trademarkId e m = k
      · subst hk
        simp [hmem]
      · have hk2 : k ≠ trademarkId e m := fun h => hk h.symm
        simp [hk, hk2]
    · simpa [List.nodup_append, hs] using hmem

/-- Flip sequences from any duplicate-free start: a key is in the final set
iff its start membership xor-ed with the parity of its flip count holds. -/
theorem applyFlipsFrom_parity (ops : List (Nat × Nat)) (s : List String)
    (hs : s.Nodup) (k : String) :
    k ∈ applyFlipsFrom s ops ↔
      Xor' (k ∈ s)
        (Odd (ops.countP fun p => trademarkId p.1 p.2 == k)) := by
  induction ops generalizing s with
  | nil =>
    simp [applyFlipsFrom, Nat.odd_iff, Xor']
  | cons op rest ih =>
    have hstep := mem_flipSelect s hs op.1 op.2 k
    have hrec := ih (flipSelect s op.1 op.2) hstep.2
    have hfold : applyFlipsFrom s (op :: rest) =
        applyFlipsFrom (flipSelect s op.1 op.2) rest := rfl
    rw [hfold, hrec, List.countP_cons]
    by_cases hk : trademarkId op.1 op.2 = k
    · simp only [hk, beq_self_eq_true, if_true, hstep.1, if_pos rfl,
        Nat.odd_add_one]
      unfold Xor'
      tauto
    · have hbeq : (trademarkId op.1 op.2 == k) = false := by
        simpa using hk
      simp only [hbeq, Bool.false_eq_true, if_false, Nat.add_zero,
        hstep.1, if_neg hk]

/-- C5 (counterexample): calling `handleTrademarkSelect` twice with
`checked = true` on key (0,0) from the empty set leaves the key selected
although it was toggled an even number of times — with the explicit boolean
argument, toggling is not its own inverse and the parity law fails. -/
theorem toggle_parity_counterexample :
    applyToggles [(0, 0, true), (0, 0, true)] = ["0-0"] ∧
      List.countP
          (fun op => trademarkId op.1 op.2.1 == "0-0")
          [((0 : Nat), (0 : Nat), true), (0, 0, true)] = 2 := by
  constructor
  · rfl
  · rfl

/-- C5 (amended): for checkbox-driven toggles — each call's boolean is the
negation of the key's current membership, which is how every `onChange`
handler invokes `handleTrademarkSelect` — a key is in the final selection
set iff it was toggled an odd number of times, starting from the empty set.
-/
theorem flip_parity (ops : List (Nat × Nat)) (k : String) :
    k ∈ applyFlips ops ↔
      Odd (ops.countP fun p => trademarkId p.1 p.2 == k) := by
  have h := applyFlipsFrom_parity ops [] List.nodup_nil k
  simpa [applyFlips, Xor'] using h

/-! ### C2: aggregation invariants -/

/-- Pushing one match into a bucket list adds exactly one to its count. -/
theorem count_pushSimIntoBuckets (buckets : List EntryBucket) (ei : Nat)
    (entry : Entry) (sim : Sim) :
    ((pushSimIntoBuckets buckets ei entry sim).map
        (fun b => b.2.2.length)).sum =
      (buckets.map (fun b => b.2.2.length)).sum + 1 := by
  induction buckets with
  | nil => simp [pushSimIntoBuckets]
  | cons b rest ih =>
    obtain ⟨i, en, sims⟩ := b
    by_cases h : i = ei
    · simp [pushSimIntoBuckets, h]
      omega
    · simp [pushSimIntoBuckets, h, ih]
      omega

/-- Pushing one match into the group list adds exactly one to the total. -/
theorem count_pushIntoGroups (groups : List Group) (key : String) (ei : Nat)
    (entry : Entry) (sim : Sim) :
    totalTrademarksInGroups (pushIntoGroups groups key ei entry sim) =
      totalTrademarksInGroups groups + 1 := by
  induction groups with
  | nil => simp [pushIntoGroups, totalTrademarksInGroups, groupCount]
  | cons g rest ih =>
    obtain ⟨k, buckets⟩ := g
    by_cases h : k = key
    · simp [pushIntoGroups, h, totalTrademarksInGroups, groupCount,
        count_pushSimIntoBuckets]
      omega
    · simp [pushIntoGroups, h, totalTrademarksInGroups, groupCount] at ih ⊢
      omega

/-- Pushing under one key leaves the buckets of every other key unchanged. -/
theorem findGroup_push_other (groups : List Group) (key key2 : String)
    (ei : Nat) (entry : Entry) (sim : Sim) (h : key2 ≠ key) :
    findGroup (pushIntoGroups groups key ei entry sim) key2 =
      findGroup groups key2 := by
  induction groups with
  | nil => simp [pushIntoGroups, findGroup, Ne.symm h]
  | cons g rest ih =>
    obtain ⟨k, buckets⟩ := g
    by_cases hk : k = key
    · subst hk
      simp [pushIntoGroups, findGroup, Ne.symm h]
    · simp only [pushIntoGroups, hk, if_false, findGroup]
      by_cases hk2 : k = key2
      · simp [hk2]
      · simp [hk2, ih]

/-- Pushing under a key updates exactly that key's buckets with the inner
push (whether or not the key already existed). -/
theorem findGroup_push_self (groups : List Group) (key : String) (ei : Nat)
    (entry : Entry) (sim : Sim) :
    findGroup (pushIntoGroups groups key ei entry sim) key =
      pushSimIntoBuckets (findGroup groups key) ei entry sim := by
  induction groups with
  | nil => simp [pushIntoGroups, findGroup, pushSimIntoBuckets]
  | cons g rest ih =>
    obtain ⟨k, buckets⟩ := g
    by_cases hk : k = key
    · simp [pushIntoGroups, hk, findGroup]
    · simp [pushIntoGroups, hk, findGroup, ih]

/-- The pushed match lands in the bucket list. -/
theorem mem_pushSimIntoBuckets (buckets : List EntryBucket) (ei : Nat)
    (entry : Entry) (sim : Sim) :
    sim ∈ bucketsSims (pushSimIntoBuckets buckets ei entry sim) := by
  induction buckets with
  | nil => simp [pushSimIntoBuckets, bucketsSims]
  | cons b rest ih =>
    obtain ⟨i, en, sims⟩ := b
    by_cases h : i = ei
    · simp [pushSimIntoBuckets, h, bucketsSims]
    · simp only [pushSimIntoBuckets, h, if_false, bucketsSims, List.map_cons,
        List.flatten_cons, List.mem_append]
      exact Or.inr (by simpa [bucketsSims] using ih)

/-- Matches already in a bucket list survive a push. -/
theorem mem_pushSimIntoBuckets_mono (buckets : List EntryBucket) (ei : Nat)
    (entry : Entry) (sim x : Sim) (hx : x ∈ bucketsSims buckets) :
    x ∈ bucketsSims (pushSimIntoBuckets buckets ei entry sim) := by
  induction buckets with
  | nil => simp [bucketsSims] at hx
  | cons b rest ih =>
    obtain ⟨i, en, sims⟩ := b
    simp only [bucketsSims, List.map_cons, List.flatten_cons,
      List.mem_append] at hx
    by_cases h : i = ei
    · simp only [pushSimIntoBuckets, h, if_true, bucketsSims, List.map_cons,
        List.flatten_cons, List.mem_append]
      rcases hx with hx | hx
      · exact Or.inl (by simp [hx])
      · exact Or.inr hx
    · simp only [pushSimIntoBuckets, h, if_false, bucketsSims, List.map_cons,
        List.flatten_cons, List.mem_append]
      rcases hx with hx | hx
      · exact Or.inl hx
      · exact Or.inr (by simpa [bucketsSims] using ih (by simpa [bucketsSims]
          using hx))

/-- Matches already filed under any key survive a later push. -/
theorem mem_findGroup_push_mono (groups : List Group) (key key2 : String)
    (ei : Nat) (entry : Entry) (sim x : Sim)
    (hx : x ∈ bucketsSims (findGroup groups key2)) :
    x ∈ bucketsSims (findGroup (pushIntoGroups groups key ei entry sim)
      key2) := by
  by_cases h : key2 = key
  · subst h
    rw [findGroup_push_self]
    exact mem_pushSimIntoBuckets_mono _ _ _ _ _ hx
  · rwa [findGroup_push_other _ _ _ _ _ _ h]

/-- The grouping fold step. -/
def groupStep (gs : List Group) (st : SelTm) : List Group :=
  pushIntoGroups gs (normalizeApplicant st.sim.applicant_name) st.entryIndex
    st.entry st.sim

/-- The keys after a push: unchanged when the key existed, appended once
otherwise. -/
theorem keys_pushIntoGroups (groups : List Group) (key : String) (ei : Nat)
    (entry : Entry) (sim : Sim) :
    (pushIntoGroups groups key ei entry sim).map Prod.fst =
      if key ∈ groups.map Prod.fst then groups.map Prod.fst
      else groups.map Prod.fst ++ [key] := by
  induction groups with
  | nil => simp [pushIntoGroups]
  | cons g rest ih =>
    obtain ⟨k, buckets⟩ := g
    by_cases hk : k = key
    · simp [pushIntoGroups, hk]
    · have : ¬ key = k := fun h => hk h.symm
      simp only [pushIntoGroups, hk, if_false, List.map_cons,
        List.mem_cons, this, false_or, ih]
      by_cases hmem : key ∈ rest.map Prod.fst
      · simp [hmem]
      · simp [hmem]

/-- Key distinctness is preserved by a push. -/
theorem nodup_keys_pushIntoGroups (groups : List Group) (key : String)
    (ei : Nat) (entry : Entry) (sim : Sim)
    (h : (groups.map Prod.fst).Nodup) :
    ((pushIntoGroups groups key ei entry sim).map Prod.fst).Nodup := by
  rw [keys_pushIntoGroups]
  by_cases hmem : key ∈ groups.map Prod.fst
  · simpa [hmem] using h
  · rw [if_neg hmem, List.nodup_append]
    refine ⟨h, List.nodup_singleton _, ?_⟩
    intro a ha hka
    simp only [List.mem_singleton] at hka
    exact hmem (hka ▸ ha)

/-- Invariants carried through the whole grouping fold: the total count grows
by the number of processed selections, keys stay distinct, and every
processed selection's match is filed under its normalized applicant key. -/
theorem groupfold_invariant (sels : List SelTm) (gs : List Group)
    (hnd : (gs.map Prod.fst).Nodup) :
    totalTrademarksInGroups (sels.foldl groupStep gs) =
        totalTrademarksInGroups gs + sels.length ∧
      (((sels.foldl groupStep gs).map Prod.fst).Nodup) ∧
      (∀ st ∈ sels, st.sim ∈ bucketsSims (findGroup (sels.foldl groupStep gs)
        (normalizeApplicant st.sim.applicant_name))) ∧
      (∀ k, (∀ x ∈ bucketsSims (findGroup gs k),
        x ∈ bucketsSims (findGroup (sels.foldl groupStep gs) k))) := by
  induction sels generalizing gs with
  | nil =>
    refine ⟨by simp, by simpa using hnd, by simp, by simp⟩
  | cons st rest ih =>
    have hnd2 : ((groupStep gs st).map Prod.fst).Nodup :=
      nodup_keys_pushIntoGroups _ _ _ _ _ hnd
    obtain ⟨ihcount, ihnd, ihmem, ihmono⟩ := ih (groupStep gs st) hnd2
    have hfold : (st :: rest).foldl groupStep gs =
        rest.foldl groupStep (groupStep gs st) := rfl
    refine ⟨?_, by rwa [hfold], ?_, ?_⟩
    · rw [hfold, ihcount, groupStep, count_pushIntoGroups]
      simp [Nat.add_assoc, Nat.add_comm 1 rest.length]
    · intro x hx
      rcases List.mem_cons.mp hx with hx | hx
      · subst hx
        rw [hfold]
        refine ihmono _ _ ?_
        rw [groupStep, findGroup_push_self]
        exact mem_pushSimIntoBuckets _ _ _ _
      · exact ihmem x hx
    · intro k x hx
      rw [hfold]
      refine ihmono k x ?_
      exact mem_findGroup_push_mono _ _ _ _ _ _ _ hx

/-- C2: at template-generation time the aggregator files every selected match
under exactly one applicant group — group keys are pairwise distinct and each
selection's match is present under its own normalized applicant key — and the
sum over all groups of selected-match counts equals the number of selection
keys handed over. (The code makes this hold for *every* selection list, so in
particular for selections not touching ambiguous duplicates.) -/
theorem aggregator_invariant (sels : List SelTm) :
    totalTrademarksInGroups (groupByApplicant sels) = sels.length ∧
      ((groupByApplicant sels).map Prod.fst).Nodup ∧
      ∀ st ∈ sels, st.sim ∈ bucketsSims (findGroup (groupByApplicant sels)
        (normalizeApplicant st.sim.applicant_name)) := by
  have h := groupfold_invariant sels [] (by simp)
  have hdef : groupByApplicant sels = sels.foldl groupStep [] := rfl
  refine ⟨?_, ?_, ?_⟩
  · rw [hdef, h.1]
    simp [totalTrademarksInGroups]
  · rw [hdef]; exact h.2.1
  · rw [hdef]; exact h.2.2.1

/-- C2 (witness): two selections for distinct applicants produce two groups
with distinct keys, a total count of 2, and each match filed under its own
applicant. -/
theorem aggregator_invariant_witness :
    totalTrademarksInGroups
        (groupByApplicant [⟨tigerEntry, tygerSim, 0, 0⟩,
          ⟨emptyFirstEntry, otherSim, 1, 0⟩]) = 2 ∧
      ((groupByApplicant [⟨tigerEntry, tygerSim, 0, 0⟩,
        ⟨emptyFirstEntry, otherSim, 1, 0⟩]).map Prod.fst).Nodup ∧
      ∀ st ∈ [(⟨tigerEntry, tygerSim, 0, 0⟩ : SelTm),
          ⟨emptyFirstEntry, otherSim, 1, 0⟩],
        st.sim ∈ bucketsSims
          (findGroup (groupByApplicant [⟨tigerEntry, tygerSim, 0, 0⟩,
            ⟨emptyFirstEntry, otherSim, 1, 0⟩])
            (normalizeApplicant st.sim.applicant_name)) :=
  aggregator_invariant
    [⟨tigerEntry, tygerSim, 0, 0⟩, ⟨emptyFirstEntry, otherSim, 1, 0⟩]

/-! ### C6: applicant grouping key normalization -/

/-- C6: the grouping key is the applicant name with whitespace trimmed; a
missing name or one that trims to empty (e.g. whitespace-only "  ") maps to
the sentinel "Unknown"; and group keys are compared by exact string equality
— two selections group together iff their normalized keys are equal strings,
with no fuzzy merging. -/
theorem grouping_key_normalization :
    (∀ s : String, jsTrim s ≠ "" → normalizeApplicant (some s) = jsTrim s) ∧
      normalizeApplicant (some "  ") = "Unknown" ∧
      normalizeApplicant none = "Unknown" ∧
      (∀ st1 st2 : SelTm,
        normalizeApplicant st1.sim.applicant_name ≠
          normalizeApplicant st2.sim.applicant_name →
        (groupByApplicant [st1, st2]).map Prod.fst =
          [normalizeApplicant st1.sim.applicant_name,
            normalizeApplicant st2.sim.applicant_name]) ∧
      (∀ st1 st2 : SelTm,
        normalizeApplicant st1.sim.applicant_name =
          normalizeApplicant st2.sim.applicant_name →
        (groupByApplicant [st1, st2]).map Prod.fst =
          [normalizeApplicant st1.sim.applicant_name]) := by
  refine ⟨?_, by decide, rfl, ?_, ?_⟩
  · intro s h
    simp [normalizeApplicant, h]
  · intro st1 st2 h
    simp [groupByApplicant, pushIntoGroups, h]
  · intro st1 st2 h
    simp [groupByApplicant, pushIntoGroups, h]

/-- C6 (witness): a padded name keeps its trimmed form, and an applicant
name differing only in letter case produces a second, separate group. -/
theorem grouping_key_normalization_witness :
    jsTrim " Acme Corp " ≠ "" ∧
      normalizeApplicant (some " Acme Corp ") = jsTrim " Acme Corp " ∧
      (groupByApplicant [⟨tigerEntry, tygerSim, 0, 0⟩,
          ⟨tigerEntry, caseSim, 0, 0⟩]).map Prod.fst =
        [normalizeApplicant tygerSim.applicant_name,
          normalizeApplicant caseSim.applicant_name] :=
  ⟨by decide, grouping_key_normalization.1 " Acme Corp " (by decide),
    grouping_key_normalization.2.2.2.1 ⟨tigerEntry, tygerSim, 0, 0⟩
      ⟨tigerEntry, caseSim, 0, 0⟩ (by decide)⟩

/-! ### C7: the four-field match-sequence fallback -/

/-- C7 (counterexample): `emptyFirstEntry` carries a *present but empty*
`similar_trademarks` array and a non-empty `matches` array. The first
non-empty sequence among the four fields is `[otherSim]`, but the code uses
`[]`: in JS the `||` chain stops at the present empty array (arrays are
always truthy). -/
theorem fallback_chain_counterexample :
    simsOf emptyFirstEntry = [] ∧
      emptyFirstEntry.similar_trademarks = some [] ∧
      emptyFirstEntry.«matches» = some [otherSim] ∧
      firstNonEmptySims emptyFirstEntry = [otherSim] :=
  ⟨rfl, rfl, rfl, rfl⟩

/-- C7 (amended): the consumer uses the first *present* (non-undefined)
sequence among the four field names, even when that sequence is empty; when
none is present the empty sequence is used. This coincides with the spec's
first-non-empty rule whenever no present field holds an empty list. -/
theorem fallback_chain_first_present (e : Entry)
    (h1 : e.similar_trademarks ≠ some [])
    (h2 : e.similar_trademark ≠ some [])
    (h3 : e.similarities ≠ some [])
    (h4 : e.«matches» ≠ some []) :
    simsOf e = firstNonEmptySims e ∧
      (e.similar_trademarks = none → e.similar_trademark = none →
        e.similarities = none → e.«matches» = none → simsOf e = []) := by
  constructor
  · rcases e with ⟨mn, mk, tc, an, ap, ps, pn, f1, f2, f3, f4⟩
    dsimp only at h1 h2 h3 h4
    rcases f1 with _ | l1
    · rcases f2 with _ | l2
      · rcases f3 with _ | l3
        · rcases f4 with _ | l4
          · rfl
          · rcases l4 with _ | ⟨a, l⟩
            · exact absurd rfl h4
            · rfl
        · rcases l3 with _ | ⟨a, l⟩
          · exact absurd rfl h3
          · rfl
      · rcases l2 with _ | ⟨a, l⟩
        · exact absurd rfl h2
        · rfl
    · rcases l1 with _ | ⟨a, l⟩
      · exact absurd rfl h1
      · rfl
  · intro g1 g2 g3 g4
    simp [simsOf, g1, g2, g3, g4]

/-- C7 (witness): on the scenario entry — whose only present field is a
non-empty `similar_trademarks` — the code's fallback and the first-non-empty
rule agree. -/
theorem fallback_chain_first_present_witness :
    simsOf tigerEntry = firstNonEmptySims tigerEntry ∧
      (tigerEntry.similar_trademarks = none →
        tigerEntry.similar_trademark = none →
        tigerEntry.similarities = none → tigerEntry.«matches» = none →
        simsOf tigerEntry = []) :=
  fallback_chain_first_present tigerEntry (by decide) (by decide) (by decide)
    (by decide)

/-! ### C9: session-storage lifecycle -/

/-- C9 (counterexample): with both keys present and both decoders
succeeding on a non-empty list, the load effect accepts the data — and
leaves the store exactly as it was: the two keys are *not* cleared on
successful parse (they are cleared only in the catch branch for corrupted
content). -/
theorem storage_cleared_on_success_counterexample :
    loadEmailTemplatesPage goodParseSel goodParseRep storeBoth =
        (.loaded [selTiger] ⟨"r1", "2025-01-06", "2025-01-06"⟩, storeBoth) ∧
      storeBoth.selectedTrademarks ≠ none ∧
      storeBoth.reportData ≠ none :=
  ⟨rfl, by decide, by decide⟩

/-- C9 (amended): on successful parse of a non-empty selection list the data
is accepted and the store is left untouched; when stored content fails to
parse (corrupted) both keys are cleared and a non-fatal error state results,
just as an absent key yields a non-fatal error state; and every "generate"
action repopulates both keys (remove-then-set) with the serialized payloads.
-/
theorem storage_lifecycle (pS : String → Option (List SelTm))
    (pR : String → Option ReportMeta) (store : Store) (ts rs : String)
    (tms : List SelTm) (rep : ReportMeta)
    (serSel : List SelTm → String) (serRep : String)
    (entries : List Entry) (sel : List String)
    (hts : store.selectedTrademarks = some ts)
    (hrs : store.reportData = some rs) :
    (pS ts = some tms → pR rs = some rep → tms ≠ [] →
      loadEmailTemplatesPage pS pR store = (.loaded tms rep, store)) ∧
      (pS ts = none →
        loadEmailTemplatesPage pS pR store = (.corruptError, ⟨none, none⟩)) ∧
      (∀ store2 : Store, store2.selectedTrademarks = none →
        loadEmailTemplatesPage pS pR store2 = (.missingError, store2)) ∧
      (getSelectedTrademarksData entries sel ≠ [] →
        (handleGenerateTemplates serSel serRep entries sel store).1 =
          ⟨some (serSel (getSelectedTrademarksData entries sel)),
            some serRep⟩) := by
  obtain ⟨os, or⟩ := store
  cases hts
  cases hrs
  refine ⟨?_, ?_, ?_, ?_⟩
  · intro hsel hrep hne
    rcases tms with _ | ⟨t, tl⟩
    · exact absurd rfl hne
    · simp [loadEmailTemplatesPage, hsel, hrep]
  · intro hsel
    simp [loadEmailTemplatesPage, hsel]
  · intro store2 h2
    obtain ⟨o2s, o2r⟩ := store2
    cases h2
    simp [loadEmailTemplatesPage]
  · intro hne
    rcases hgen : getSelectedTrademarksData entries sel with _ | ⟨d, dl⟩
    · exact absurd hgen hne
    · simp [handleGenerateTemplates, hgen, setItemReport, setItemSelected,
        removeItemReport, removeItemSelected]

/-- C9 (witness): the lifecycle at concrete stores, decoders and a one-key
selection over the scenario entry. -/
theorem storage_lifecycle_witness :
    loadEmailTemplatesPage goodParseSel goodParseRep storeBoth =
        (.loaded [selTiger] ⟨"r1", "2025-01-06", "2025-01-06"⟩, storeBoth) ∧
      loadEmailTemplatesPage badParseSel goodParseRep storeBoth =
        (.corruptError, ⟨none, none⟩) ∧
      loadEmailTemplatesPage goodParseSel goodParseRep
          ⟨none, some "serialized-report"⟩ =
        (.missingError, ⟨none, some "serialized-report"⟩) ∧
      (handleGenerateTemplates (fun _ => "ser-sel") "ser-rep" [tigerEntry]
          ["0-0"] storeBoth).1 =
        ⟨some "ser-sel", some "ser-rep"⟩ :=
  ⟨(storage_lifecycle goodParseSel goodParseRep storeBoth
      "serialized-selection" "serialized-report" [selTiger]
      ⟨"r1", "2025-01-06", "2025-01-06"⟩ (fun _ => "ser-sel") "ser-rep"
      [tigerEntry] ["0-0"] rfl rfl).1 rfl rfl (by decide),
    (storage_lifecycle badParseSel goodParseRep storeBoth
      "serialized-selection" "serialized-report" [] ⟨"", "", ""⟩
      (fun _ => "ser-sel") "ser-rep" [tigerEntry] ["0-0"] rfl rfl).2.1 rfl,
    (storage_lifecycle goodParseSel goodParseRep storeBoth
      "serialized-selection" "serialized-report" [] ⟨"", "", ""⟩
      (fun _ => "ser-sel") "ser-rep" [tigerEntry] ["0-0"] rfl rfl).2.2.1
      ⟨none, some "serialized-report"⟩ rfl,
    (storage_lifecycle goodParseSel goodParseRep storeBoth
      "serialized-selection" "serialized-report" [] ⟨"", "", ""⟩
      (fun _ => "ser-sel") "ser-rep" [tigerEntry] ["0-0"] rfl rfl).2.2.2
      (by decide)⟩

/-! ### C10: order of the selected-data list -/

/-- Every element collected from one entry's match walk carries that entry's
index and a match index no smaller than the running start. -/
theorem collectSims_bounds (sel : List String) (entry : Entry) (ei : Nat) :
    ∀ (sims : List Sim) (si : Nat),
      ∀ x ∈ collectSims sel entry ei si sims,
        x.entryIndex = ei ∧ si ≤ x.simIndex := by
  intro sims
  induction sims with
  | nil => intro si x hx; simp [collectSims] at hx
  | cons sim rest ih =>
    intro si x hx
    simp only [collectSims, List.mem_append] at hx
    rcases hx with hx | hx
    · rcases hc : sel.contains (trademarkId ei si) with _ | _ <;>
        rw [hc] at hx
      · simp at hx
      · simp only [if_true, List.mem_singleton] at hx
        subst hx
        exact ⟨rfl, Nat.le_refl si⟩
    · obtain ⟨he, hs⟩ := ih (si + 1) x hx
      exact ⟨he, Nat.le_of_succ_le hs⟩

/-- One entry's match walk yields matches in strictly increasing match-index
order. -/
theorem collectSims_pairwise (sel : List String) (entry : Entry) (ei : Nat) :
    ∀ (sims : List Sim) (si : Nat),
      List.Pairwise keyLt (collectSims sel entry ei si sims) := by
  intro sims
  induction sims with
  | nil => intro si; simp [collectSims]
  | cons sim rest ih =>
    intro si
    rw [collectSims, List.pairwise_append]
    refine ⟨?_, ih (si + 1), ?_⟩
    · rcases hc : sel.contains (trademarkId ei si) with _ | _ <;> simp
    · intro a ha b hb
      obtain ⟨hbe, hbs⟩ := collectSims_bounds sel entry ei rest (si + 1) b hb
      rcases hc : sel.contains (trademarkId ei si) with _ | _ <;>
        rw [hc] at ha
      · simp at ha
      · simp only [if_true, List.mem_singleton] at ha
        subst ha
        exact Or.inr ⟨hbe.symm, Nat.lt_of_succ_le hbs⟩

/-- Every element collected from the entry walk has an entry index no
smaller than the running start. -/
theorem collectEntries_bounds (sel : List String) :
    ∀ (es : List Entry) (ei : Nat),
      ∀ x ∈ collectEntries sel ei es, ei ≤ x.entryIndex := by
  intro es
  induction es with
  | nil => intro ei x hx; simp [collectEntries] at hx
  | cons e rest ih =>
    intro ei x hx
    simp only [collectEntries, List.mem_append] at hx
    rcases hx with hx | hx
    · exact (collectSims_bounds sel e ei (simsOf e) 0 x hx).1 ▸ Nat.le_refl ei
    · exact Nat.le_of_succ_le (ih (ei + 1) x hx)

/-- The entry walk yields the selected data in lexicographically increasing
(entry index, match index) order. -/
theorem collectEntries_pairwise (sel : List String) :
    ∀ (es : List Entry) (ei : Nat),
      List.Pairwise keyLt (collectEntries sel ei es) := by
  intro es
  induction es with
  | nil => intro ei; simp [collectEntries]
  | cons e rest ih =>
    intro ei
    rw [collectEntries, List.pairwise_append]
    refine ⟨collectSims_pairwise sel e ei (simsOf e) 0, ih (ei + 1), ?_⟩
    intro a ha b hb
    have hae := (collectSims_bounds sel e ei (simsOf e) 0 a ha).1
    have hbe := collectEntries_bounds sel rest (ei + 1) b hb
    exact Or.inl (hae ▸ Nat.lt_of_succ_le hbe)

/-- The match walk depends on the selection set only through membership. -/
theorem collectSims_ext (sel1 sel2 : List String)
    (h : ∀ k, sel1.contains k = sel2.contains k) (entry : Entry) (ei : Nat) :
    ∀ (sims : List Sim) (si : Nat),
      collectSims sel1 entry ei si sims = collectSims sel2 entry ei si sims
  | [], _ => rfl
  | sim :: rest, si => by
    rw [collectSims, collectSims, h (trademarkId ei si),
      collectSims_ext sel1 sel2 h entry ei rest (si + 1)]

/-- The entry walk depends on the selection set only through membership. -/
theorem collectEntries_ext (sel1 sel2 : List String)
    (h : ∀ k, sel1.contains k = sel2.contains k) :
    ∀ (es : List Entry) (ei : Nat),
      collectEntries sel1 ei es = collectEntries sel2 ei es
  | [], _ => rfl
  | e :: rest, ei => by
    rw [collectEntries, collectEntries,
      collectSims_ext sel1 sel2 h e ei (simsOf e) 0,
      collectEntries_ext sel1 sel2 h rest (ei + 1)]

/-- C10: the selected-data list handed to the template-generation page is
ordered by ascending original entry position and, within an entry, by
ascending original match position; and it depends on the selection set only
through membership, hence not on the order in which keys were toggled in. -/
theorem selected_data_ordered (entries : List Entry) (sel1 sel2 : List String)
    (h : ∀ k, sel1.contains k = sel2.contains k) :
    getSelectedTrademarksData entries sel1 =
        getSelectedTrademarksData entries sel2 ∧
      List.Pairwise keyLt (getSelectedTrademarksData entries sel1) := by
  exact ⟨collectEntries_ext sel1 sel2 h entries 0,
    collectEntries_pairwise sel1 entries 0⟩

/-- C10 (witness): two selection sets holding the same two keys in opposite
insertion order produce the same list, sorted by (entry, match) position. -/
theorem selected_data_ordered_witness :
    getSelectedTrademarksData [tigerEntry, tigerEntry] ["1-0", "0-0"] =
        getSelectedTrademarksData [tigerEntry, tigerEntry] ["0-0", "1-0"] ∧
      List.Pairwise keyLt
        (getSelectedTrademarksData [tigerEntry, tigerEntry]
          ["1-0", "0-0"]) :=
  selected_data_ordered [tigerEntry, tigerEntry] ["1-0", "0-0"]
    ["0-0", "1-0"]
    (by
      intro k
      simp only [List.contains_cons, List.contains_nil, Bool.or_false]
      exact Bool.or_comm _ _)

/-! ### C3: the TIGER/TYGER template scenario -/

/-- C3 (counterexample): the generated template does *not* contain
"May 6, 2025". Every `toLocaleDateString` call in the source requests the
`en-IN` locale, whose long date pattern is day-first, so the deadline renders
as "6 May 2025". -/
theorem tiger_template_counterexample :
    strContains tigerTemplate "May 6, 2025" = false := by
  decide

/-- C3 (amended): for entry "TIGER" (class 25, source
"Journal_2237_Class25.pdf") with the selected match "TYGER" (applicant
"Acme Corp", class "Class 25", score 0.85) and reference Monday
"2025-01-06", the output contains "Trademark: TIGER", "Class: 25", "2237", a
line "Trademark: TYGER", the stripped match class line "Class: 25", and a
deadline of "6 May 2025" (January 6 plus four calendar months, rendered in
the day-first en-IN locale rather than as "May 6, 2025"). -/
theorem tiger_template_scenario :
    strContains tigerTemplate "Trademark: TIGER" = true ∧
      strContains tigerTemplate "Class: 25" = true ∧
      strContains tigerTemplate "2237" = true ∧
      strContains tigerTemplate "Trademark: TYGER" = true ∧
      strContains tigerTemplate "Class: 25\n" = true ∧
      formatOppositionDeadline "2025-01-06" = "6 May 2025" ∧
      strContains tigerTemplate "6 May 2025" = true := by
  refine ⟨?_, ?_, ?_, ?_, ?_, ?_, ?_⟩ <;> decide

/-! ### C4: score normalization before display -/

/-- C4 (code evaluated at the failing input): `formatPercentage` multiplies
by 100 without normalizing, so the normalized paths (e.g. the
applicant-filtered view, which applies `score > 1 ? score / 100 : score`
first) render a percentage-scale score 85 and a fraction 0.85 both as
"85.0%", but the similar-trademarks table cell passes the raw score and
renders 85 as "8500.0%" — the invariant "normalize before any display
formatting" is broken there. -/
theorem score_normalization_table_cell :
    normScore 85 = 85 / 100 ∧
      formatPercentage (normScore 85) = "85.0%" ∧
      formatPercentage (85 / 100) = "85.0%" ∧
      formatPercentage 85 = "8500.0%" := by
  have hn : normScore 85 = 85 / 100 := by norm_num [normScore]
  have h850 : (⌊(85 : ℚ) / 100 * 100 * 10 + 1 / 2⌋ : Int) = 850 := by
    rw [Int.floor_eq_iff]; norm_num
  have h85000 : (⌊(85 : ℚ) * 100 * 10 + 1 / 2⌋ : Int) = 85000 := by
    rw [Int.floor_eq_iff]; norm_num
  refine ⟨hn, ?_, ?_, ?_⟩
  · rw [hn]
    simp only [formatPercentage, toFixed1, h850]
    decide
  · simp only [formatPercentage, toFixed1, h850]
    decide
  · simp only [formatPercentage, toFixed1, h85000]
    decide

end TMApp
